import Mathlib

/-!
Shallow embedding of the escrow-ledger core of the `exonum_tx` repository
(`src/pending_transfer.rs`, `src/schema.rs`, `src/transactions.rs`) and
proofs settling the specification claims about it.

Machine integers are modelled as `Int` (for the `i64` wallet balance) and
`Nat` (for the `u64` frozen amounts and transfer amounts).  Authenticated
store digests are modelled as the committed contents themselves (a perfect
commitment), which preserves exactly the dependency structure the claims
are about.
-/

set_option linter.unusedVariables false

namespace ExonumTx

/-- Account identities (`PublicKey` in the source) are modelled as naturals. -/
abbrev PublicKey := Nat

/-- Transaction identifiers (`Hash` in the source) are modelled as naturals. -/
abbrev Hash := Nat

/-- Modelled from the spec: the Account record (`Wallet` in the source).
`wallet.rs` is not under `src/`, so the fields follow the spec data model
and the uses in `src/schema.rs` and `src/transactions.rs`:
`Wallet::new(key, name, INITIAL_BALANCE, history.len(), &history_hash, 0)`
(schema.rs line 159) fixes the field order, and
`sender.balance + (sender.frozen_amount as i64)` together with
`can_confirm_withdrawal(sender.balance, ...)` (transactions.rs lines 226 and
268) fix `balance : i64` (here `Int`) and `frozen_amount : u64` (here `Nat`).
The history digest is modelled as the committed list of entries itself. -/
structure Wallet where
  pub_key : PublicKey
  name : String
  balance : Int
  history_len : Nat
  history_hash : List Hash
  frozen_amount : Nat
  deriving Repr, DecidableEq

/-- The `PendingTransfer` record of `src/pending_transfer.rs` (lines 25-36).

Note on the `approver` field: `src/pending_transfer.rs` as frozen declares
only `tx_hash`, `from`, `to`, `amount`, `fulfilled`, yet
`src/transactions.rs` line 252 reads `pending_transfer.approver` and line
231 passes an `approver` argument to `create_pending_transfer`, so the crate
does not compile without the field (this mismatch is the subject of claim
C1).  The field is included here, as `src/transactions.rs` and the spec
require ("approver identity (`approver`)"). -/
structure PendingTransfer where
  tx_hash : Hash
  «from» : PublicKey
  «to» : PublicKey
  approver : PublicKey
  amount : Nat
  fulfilled : Bool
  deriving Repr, DecidableEq

/-- `PendingTransfer::set_fulfilled` (pending_transfer.rs lines 56-61):
a copy of the record with the `fulfilled` flag set. -/
def PendingTransfer.set_fulfilled (t : PendingTransfer) : PendingTransfer :=
  { t with fulfilled := true }

/-- The ten error kinds surfaced by the transaction handlers: the seven
variants of `enum Error` (transactions.rs lines 39-81) plus the three
bare constants `ERROR_SENDER_SAME_AS_RECEIVER`,
`ERROR_THIRD_PARTY_SAME_AS_SENDER_OR_RECEIVER`,
`ERROR_UNEXPECTED_THIRD_PARTY` (transactions.rs lines 30-34). -/
inductive TxError where
  | walletAlreadyExists
  | senderNotFound
  | receiverNotFound
  | insufficientCurrencyAmount
  | pendingTransferNotFound
  | pendingTransferAlreadyFulfilled
  | approverNotFound
  | senderSameAsReceiver
  | thirdPartySameAsSenderOrReceiver
  | unexpectedThirdParty
  deriving Repr, DecidableEq

/-- The numeric wire code each error kind is surfaced with: the enum
discriminants `WalletAlreadyExists = 0` ... `ApproverNotFound = 6`
(transactions.rs lines 44-80, via `ExecutionError::with_description(value as
u8, ...)` line 86) and the raw constants `ERROR_SENDER_SAME_AS_RECEIVER = 0`,
`ERROR_THIRD_PARTY_SAME_AS_SENDER_OR_RECEIVER = 1`,
`ERROR_UNEXPECTED_THIRD_PARTY = 2` (lines 30-34, via `ExecutionError::new`). -/
def errorCode : TxError → Nat
  | .walletAlreadyExists => 0
  | .senderNotFound => 1
  | .receiverNotFound => 2
  | .insufficientCurrencyAmount => 3
  | .pendingTransferNotFound => 4
  | .pendingTransferAlreadyFulfilled => 5
  | .approverNotFound => 6
  | .senderSameAsReceiver => 0
  | .thirdPartySameAsSenderOrReceiver => 1
  | .unexpectedThirdParty => 2

/-- Association-list lookup, modelling `ProofMapIndex::get`. -/
def alget {α : Type} : List (Nat × α) → Nat → Option α
  | [], _ => none
  | (k, v) :: rest, key => if k = key then some v else alget rest key

/-- Association-list insert-or-replace, modelling `ProofMapIndex::put`. -/
def alput {α : Type} : List (Nat × α) → Nat → α → List (Nat × α)
  | [], key, v => [(key, v)]
  | (k, w) :: rest, key, v =>
      if k = key then (key, v) :: rest else (k, w) :: alput rest key v

/-- The ledger state behind `Schema` (schema.rs): the wallets
`ProofMapIndex`, the pending-transfers `ProofMapIndex`, and the per-wallet
history `ProofListIndex` family. -/
structure LedgerState where
  wallets : List (PublicKey × Wallet)
  pending_transfers : List (Hash × PendingTransfer)
  histories : List (PublicKey × List Hash)
  deriving Repr, DecidableEq

/-- The empty store. -/
def emptyLedger : LedgerState := { wallets := [], pending_transfers := [], histories := [] }

/-- `Schema::wallet_history` contents for one key (empty when absent). -/
def wallet_history (s : LedgerState) (key : PublicKey) : List Hash :=
  (alget s.histories key).getD []

/-- `Schema::increase_wallet_balance` (schema.rs lines 99-108): push the
transaction hash onto the wallet's history, recompute the history digest,
set `balance := balance + amount`, and put the wallet back. -/
def increase_wallet_balance (s : LedgerState) (wallet : Wallet) (amount : Nat)
    (transaction : Hash) : LedgerState :=
  let history := wallet_history s wallet.pub_key ++ [transaction]
  let w := { wallet with
    balance := wallet.balance + (amount : Int),
    history_len := history.length,
    history_hash := history }
  { s with
    histories := alput s.histories wallet.pub_key history,
    wallets := alput s.wallets wallet.pub_key w }

/-- `Schema::decrease_wallet_balance` (schema.rs lines 113-125): push the
transaction hash onto the wallet's history, set `balance := balance -
amount` and `frozen_amount := frozen_amount + amount` (the escrow
reservation), and put the wallet back. -/
def decrease_wallet_balance (s : LedgerState) (wallet : Wallet) (amount : Nat)
    (transaction : Hash) : LedgerState :=
  let history := wallet_history s wallet.pub_key ++ [transaction]
  let w := { wallet with
    balance := wallet.balance - (amount : Int),
    frozen_amount := wallet.frozen_amount + amount,
    history_len := history.length,
    history_hash := history }
  { s with
    histories := alput s.histories wallet.pub_key history,
    wallets := alput s.wallets wallet.pub_key w }

/-- `Schema::decrease_wallet_frozen_balance` (schema.rs lines 130-139):
push the transaction hash onto the wallet's history and set
`frozen_amount := frozen_amount - amount` (the escrow release). -/
def decrease_wallet_frozen_balance (s : LedgerState) (wallet : Wallet) (amount : Nat)
    (transaction : Hash) : LedgerState :=
  let history := wallet_history s wallet.pub_key ++ [transaction]
  let w := { wallet with
    frozen_amount := wallet.frozen_amount - amount,
    history_len := history.length,
    history_hash := history }
  { s with
    histories := alput s.histories wallet.pub_key history,
    wallets := alput s.wallets wallet.pub_key w }

/-- `Schema::fulfill_pending_transfer` (schema.rs lines 142-146): store the
`set_fulfilled` copy of the transfer under its own `tx_hash`. -/
def fulfill_pending_transfer (s : LedgerState) (transfer : PendingTransfer) : LedgerState :=
  let fulfilled_transfer := transfer.set_fulfilled
  { s with
    pending_transfers := alput s.pending_transfers fulfilled_transfer.tx_hash fulfilled_transfer }

/-- `Schema::create_pending_transfer` (schema.rs lines 149-151): store a
fresh `PendingTransfer` with `fulfilled = false` under the transaction hash.
The `approver` parameter is absent from the schema.rs signature but is
passed at the only call site (transactions.rs line 231) and is required by
`src/transactions.rs` line 252; see the note on `PendingTransfer`. -/
def create_pending_transfer (s : LedgerState) (tx_hash : Hash) («from» «to» approver : PublicKey)
    (amount : Nat) : LedgerState :=
  { s with
    pending_transfers := alput s.pending_transfers tx_hash
      { tx_hash := tx_hash, «from» := «from», «to» := «to», approver := approver,
        amount := amount, fulfilled := false } }

/-- `Schema::create_wallet` (schema.rs lines 154-162): push the creating
transaction onto the (fresh) history and store
`Wallet::new(key, name, INITIAL_BALANCE, history.len(), &history_hash, 0)`.
`INITIAL_BALANCE` is defined outside `src/` (in `lib.rs`), so it is threaded
through as the parameter `initBal`. -/
def create_wallet (initBal : Nat) (s : LedgerState) (key : PublicKey) (name : String)
    (transaction : Hash) : LedgerState :=
  let history := wallet_history s key ++ [transaction]
  { s with
    histories := alput s.histories key history,
    wallets := alput s.wallets key
      { pub_key := key, name := name, balance := (initBal : Int),
        history_len := history.length, history_hash := history, frozen_amount := 0 } }

/-- The `Transfer` transaction payload (transactions.rs lines 93-104). -/
structure Transfer where
  «to» : PublicKey
  approver : PublicKey
  amount : Nat
  seed : Nat
  deriving Repr, DecidableEq

/-- The `Issue` transaction payload (transactions.rs lines 109-116). -/
structure Issue where
  amount : Nat
  seed : Nat
  deriving Repr, DecidableEq

/-- The `CreateWallet` transaction payload (transactions.rs lines 121-124). -/
structure CreateWallet where
  name : String
  deriving Repr, DecidableEq

/-- The `ConfirmTransfer` transaction payload (transactions.rs lines 130-135). -/
structure ConfirmTransfer where
  tx_hash : Hash
  seed : Nat
  deriving Repr, DecidableEq

/-- `can_confirm_withdrawal` (transactions.rs lines 240-242):
`frozen >= amount && (frozen as i64) + balance >= (amount as i64)`. -/
def can_confirm_withdrawal (balance : Int) (frozen : Nat) (amount : Nat) : Bool :=
  decide (frozen ≥ amount) && decide ((frozen : Int) + balance ≥ (amount : Int))

/-- `impl Transaction for Transfer::execute` (transactions.rs lines 200-235).
`author` is `context.author()` and `hash` is `context.tx_hash()`. -/
def Transfer.execute (s : LedgerState) (author : PublicKey) (hash : Hash)
    (tx : Transfer) : Except TxError LedgerState :=
  -- the source's locals `from` (= `context.author()`), `to`, `approver`,
  -- `amount` are inlined as `author`, `tx.to`, `tx.approver`, `tx.amount`
  if author = tx.approver ∨ tx.«to» = tx.approver then
    .error .thirdPartySameAsSenderOrReceiver
  else if author = tx.«to» then
    .error .senderSameAsReceiver
  else
    match alget s.wallets tx.approver with
    | none => .error .approverNotFound
    | some _ =>
      match alget s.wallets author with
      | none => .error .senderNotFound
      | some sender =>
        match alget s.wallets tx.«to» with
        | none => .error .receiverNotFound
        | some _ =>
          -- "considering frozen_amount to still be awailable for withdrawal,
          -- since it can be left unconfirmed" (transactions.rs lines 224-225)
          if sender.balance + (sender.frozen_amount : Int) < (tx.amount : Int) then
            .error .insufficientCurrencyAmount
          else
            .ok (create_pending_transfer
                  (decrease_wallet_balance s sender tx.amount hash)
                  hash author tx.«to» tx.approver tx.amount)

/-- `impl Transaction for ConfirmTransfer::execute` (transactions.rs lines
244-281).  `author` is `context.author()` (bound `approver` in the source)
and `hash` is `context.tx_hash()`. -/
def ConfirmTransfer.execute (s : LedgerState) (author : PublicKey) (hash : Hash)
    (tx : ConfirmTransfer) : Except TxError LedgerState :=
  match alget s.pending_transfers tx.tx_hash with
  | none => .error .pendingTransferNotFound
  | some pending_transfer =>
    if pending_transfer.approver ≠ author then
      .error .unexpectedThirdParty
    else if pending_transfer.fulfilled then
      .error .pendingTransferAlreadyFulfilled
    else
      match alget s.wallets pending_transfer.«from» with
      | none => .error .senderNotFound
      | some sender =>
        match alget s.wallets pending_transfer.to with
        | none => .error .receiverNotFound
        | some receiver =>
          -- the source's local `amount` is inlined as `pending_transfer.amount`
          if ! can_confirm_withdrawal sender.balance sender.frozen_amount
                 pending_transfer.amount then
            .error .insufficientCurrencyAmount
          else
            .ok (fulfill_pending_transfer
                  (increase_wallet_balance
                    (decrease_wallet_frozen_balance s sender pending_transfer.amount hash)
                    receiver pending_transfer.amount hash)
                  pending_transfer)

/-- `impl Transaction for Issue::execute` (transactions.rs lines 283-299). -/
def Issue.execute (s : LedgerState) (author : PublicKey) (hash : Hash)
    (tx : Issue) : Except TxError LedgerState :=
  match alget s.wallets author with
  | some wallet => .ok (increase_wallet_balance s wallet tx.amount hash)
  | none => .error .receiverNotFound

/-- `impl Transaction for CreateWallet::execute` (transactions.rs lines
301-316). -/
def CreateWallet.execute (initBal : Nat) (s : LedgerState) (author : PublicKey)
    (hash : Hash) (tx : CreateWallet) : Except TxError LedgerState :=
  match alget s.wallets author with
  | none => .ok (create_wallet initBal s author tx.name hash)
  | some _ => .error .walletAlreadyExists

/-- The `WalletTransactions` transaction group (transactions.rs lines
138-148). -/
inductive WalletTransactions where
  | transfer (tx : Transfer)
  | issue (tx : Issue)
  | createWallet (tx : CreateWallet)
  | confirmTransfer (tx : ConfirmTransfer)
  deriving Repr, DecidableEq

/-- A verified transaction envelope: the signer identity
(`context.author()`), the unique transaction identifier
(`context.tx_hash()`), and the payload. -/
structure Envelope where
  author : PublicKey
  tx_hash : Hash
  payload : WalletTransactions
  deriving Repr, DecidableEq

/-- One transaction applied to the ledger: dispatch on the payload exactly
as the `TransactionSet` does.  An error leaves the state untouched (the
fork is discarded by the framework). -/
def applyTx (initBal : Nat) (s : LedgerState) (e : Envelope) : Except TxError LedgerState :=
  match e.payload with
  | .transfer tx => Transfer.execute s e.author e.tx_hash tx
  | .issue tx => Issue.execute s e.author e.tx_hash tx
  | .createWallet tx => CreateWallet.execute initBal s e.author e.tx_hash tx
  | .confirmTransfer tx => ConfirmTransfer.execute s e.author e.tx_hash tx

/-- The state committed after submitting one transaction: the new state on
success, the unchanged prior state on failure (the staged fork is
discarded). -/
def commitTx (initBal : Nat) (s : LedgerState) (e : Envelope) : LedgerState :=
  match applyTx initBal s e with
  | .ok s' => s'
  | .error _ => s

/-- States reachable from the empty store by finite sequences of successful
transitions. -/
inductive Reachable (initBal : Nat) : LedgerState → Prop where
  | start : Reachable initBal emptyLedger
  | step {s : LedgerState} {e : Envelope} {t : LedgerState} :
      Reachable initBal s → applyTx initBal s e = .ok t → Reachable initBal t

/-- Run a list of transactions in order, failing if any transition fails. -/
def runList (initBal : Nat) (s : LedgerState) : List Envelope → Option LedgerState
  | [] => some s
  | e :: rest =>
    match applyTx initBal s e with
    | .ok t => runList initBal t rest
    | .error _ => none

/-- `Schema::state_hash` (schema.rs lines 71-73):
`vec![self.wallets().merkle_root()]` — a singleton vector holding the digest
of the wallets index only; the digest is modelled as the committed
contents. -/
def state_hash (s : LedgerState) : List (List (PublicKey × Wallet)) :=
  [s.wallets]

/-! ### Association-list lemmas -/

theorem alget_alput_self {α : Type} (m : List (Nat × α)) (k : Nat) (v : α) :
    alget (alput m k v) k = some v := by
  induction m with
  | nil => simp [alget, alput]
  | cons hd tl ih =>
    obtain ⟨k', v'⟩ := hd
    by_cases h : k' = k
    · simp [alput, h, alget]
    · simp [alput, h, alget, ih]

theorem alget_alput_ne {α : Type} (m : List (Nat × α)) (k k' : Nat) (v : α)
    (h : k ≠ k') : alget (alput m k v) k' = alget m k' := by
  induction m with
  | nil => simp [alget, alput, h]
  | cons hd tl ih =>
    obtain ⟨k'', v''⟩ := hd
    by_cases hk : k'' = k
    · subst hk
      simp [alput, alget, h]
    · simp only [alput, if_neg hk, alget]
      by_cases hk' : k'' = k'
      · simp [hk']
      · simp [hk', ih]

theorem alget_alput_elim {α : Type} {m : List (Nat × α)} {k k' : Nat} {v w : α}
    (h : alget (alput m k v) k' = some w) :
    (k' = k ∧ w = v) ∨ alget m k' = some w := by
  by_cases hk : k' = k
  · subst hk
    rw [alget_alput_self] at h
    exact Or.inl ⟨rfl, (Option.some_injective _ h).symm⟩
  · rw [alget_alput_ne _ _ _ _ (fun he => hk he.symm)] at h
    exact Or.inr h

/-! ### Reachability via concrete runs -/

theorem reachable_of_runList {initBal : Nat} :
    ∀ (es : List Envelope) {s t : LedgerState},
      Reachable initBal s → runList initBal s es = some t → Reachable initBal t := by
  intro es
  induction es with
  | nil =>
    intro s t hr h
    simp only [runList, Option.some.injEq] at h
    exact h ▸ hr
  | cons e rest ih =>
    intro s t hr h
    simp only [runList] at h
    split at h
    · exact ih (Reachable.step hr (by assumption)) h
    · cases h

/-! ### Success-shape lemmas for the transitions -/

theorem transfer_execute_ok {s : LedgerState} {author : PublicKey} {hash : Hash}
    {tx : Transfer} {t : LedgerState}
    (h : Transfer.execute s author hash tx = .ok t) :
    ∃ sender,
      ¬(author = tx.approver ∨ tx.«to» = tx.approver) ∧
      author ≠ tx.«to» ∧
      (alget s.wallets tx.approver).isSome ∧
      alget s.wallets author = some sender ∧
      (alget s.wallets tx.«to»).isSome ∧
      (tx.amount : Int) ≤ sender.balance + (sender.frozen_amount : Int) ∧
      t = create_pending_transfer (decrease_wallet_balance s sender tx.amount hash)
            hash author tx.«to» tx.approver tx.amount := by
  unfold Transfer.execute at h
  split at h
  · cases h
  split at h
  · cases h
  split at h
  · cases h
  split at h
  · cases h
  split at h
  · cases h
  split at h
  · cases h
  · rename_i hne hne2 xa wa hwa xs sender hsender xt wt hwt hbal
    injection h with h
    refine ⟨sender, hne, hne2, by simp [hwa], hsender, by simp [hwt], ?_, h.symm⟩
    omega

theorem confirm_execute_ok {s : LedgerState} {author : PublicKey} {hash : Hash}
    {tx : ConfirmTransfer} {t : LedgerState}
    (h : ConfirmTransfer.execute s author hash tx = .ok t) :
    ∃ pt sender receiver,
      alget s.pending_transfers tx.tx_hash = some pt ∧
      pt.approver = author ∧
      pt.fulfilled = false ∧
      alget s.wallets pt.«from» = some sender ∧
      alget s.wallets pt.«to» = some receiver ∧
      can_confirm_withdrawal sender.balance sender.frozen_amount pt.amount = true ∧
      t = fulfill_pending_transfer
            (increase_wallet_balance
              (decrease_wallet_frozen_balance s sender pt.amount hash)
              receiver pt.amount hash)
            pt := by
  unfold ConfirmTransfer.execute at h
  split at h
  · cases h
  rename_i pt hpt
  split at h
  · cases h
  split at h
  · cases h
  split at h
  · cases h
  split at h
  · cases h
  split at h
  · cases h
  · rename_i hap hful xs sender hsender xr receiver hreceiver hccw
    injection h with h
    refine ⟨pt, sender, receiver, hpt, by simpa using hap, by simpa using hful,
      hsender, hreceiver, by simpa using hccw, h.symm⟩

/-! ### Reachability invariants -/

/-- Records are stored under their own identity: every wallet sits at its
`pub_key` and every pending transfer at its `tx_hash`. -/
def KeyInv (s : LedgerState) : Prop :=
  (∀ k w, alget s.wallets k = some w → w.pub_key = k) ∧
  (∀ k pt, alget s.pending_transfers k = some pt → pt.tx_hash = k)

/-- The sum `balance + frozen_amount` of every stored wallet is
non-negative. -/
def SumInv (s : LedgerState) : Prop :=
  ∀ k w, alget s.wallets k = some w → 0 ≤ w.balance + (w.frozen_amount : Int)

theorem keyInv_preserved {initBal : Nat} {s t : LedgerState} {e : Envelope}
    (hs : KeyInv s) (h : applyTx initBal s e = .ok t) : KeyInv t := by
  obtain ⟨hw, hp⟩ := hs
  obtain ⟨author, hash, payload⟩ := e
  cases payload with
  | transfer tx =>
    obtain ⟨sender, _, _, _, hsender, _, _, ht⟩ := transfer_execute_ok h
    subst ht
    constructor
    · intro k w hk
      simp only [create_pending_transfer, decrease_wallet_balance, wallet_history] at hk
      rcases alget_alput_elim hk with ⟨hke, hwe⟩ | hold
      · subst hwe; simp [hke]
      · exact hw _ _ hold
    · intro k pt hk
      simp only [create_pending_transfer, decrease_wallet_balance, wallet_history] at hk
      rcases alget_alput_elim hk with ⟨hke, hpe⟩ | hold
      · subst hpe; simp [hke]
      · exact hp _ _ hold
  | issue tx =>
    simp only [applyTx, Issue.execute] at h
    split at h
    case h_2 => cases h
    case h_1 wallet hwallet =>
      injection h with h
      subst h
      refine ⟨?_, ?_⟩
      · intro k w hk
        simp only [increase_wallet_balance, wallet_history] at hk
        rcases alget_alput_elim hk with ⟨hke, hwe⟩ | hold
        · subst hwe; simp [hke]
        · exact hw _ _ hold
      · intro k pt hk
        exact hp _ _ hk
  | createWallet tx =>
    simp only [applyTx, CreateWallet.execute] at h
    split at h
    case h_2 => cases h
    case h_1 hnone =>
      injection h with h
      subst h
      refine ⟨?_, ?_⟩
      · intro k w hk
        simp only [create_wallet, wallet_history] at hk
        rcases alget_alput_elim hk with ⟨hke, hwe⟩ | hold
        · subst hwe; simp [hke]
        · exact hw _ _ hold
      · intro k pt hk
        exact hp _ _ hk
  | confirmTransfer tx =>
    obtain ⟨pt, sender, receiver, hpt, hap, hful, hsender, hreceiver, hccw, ht⟩ :=
      confirm_execute_ok h
    subst ht
    constructor
    · intro k w hk
      simp only [fulfill_pending_transfer, increase_wallet_balance,
        decrease_wallet_frozen_balance, wallet_history] at hk
      rcases alget_alput_elim hk with ⟨hke, hwe⟩ | hold
      · subst hwe; simp [hke]
      rcases alget_alput_elim hold with ⟨hke, hwe⟩ | hold2
      · subst hwe; simp [hke]
      · exact hw _ _ hold2
    · intro k q hk
      simp only [fulfill_pending_transfer, increase_wallet_balance,
        decrease_wallet_frozen_balance, wallet_history, PendingTransfer.set_fulfilled] at hk
      rcases alget_alput_elim hk with ⟨hke, hqe⟩ | hold
      · subst hqe; simp [hke]
      · exact hp _ _ hold

theorem sumInv_preserved {initBal : Nat} {s t : LedgerState} {e : Envelope}
    (hs : SumInv s) (h : applyTx initBal s e = .ok t) : SumInv t := by
  obtain ⟨author, hash, payload⟩ := e
  cases payload with
  | transfer tx =>
    obtain ⟨sender, _, _, _, hsender, _, hbal, ht⟩ := transfer_execute_ok h
    subst ht
    intro k w hk
    simp only [create_pending_transfer, decrease_wallet_balance, wallet_history] at hk
    rcases alget_alput_elim hk with ⟨hke, hwe⟩ | hold
    · subst hwe
      have := hs _ _ hsender
      simp only
      omega
    · exact hs _ _ hold
  | issue tx =>
    simp only [applyTx, Issue.execute] at h
    split at h
    case h_2 => cases h
    case h_1 wallet hwallet =>
      injection h with h
      subst h
      intro k w hk
      simp only [increase_wallet_balance, wallet_history] at hk
      rcases alget_alput_elim hk with ⟨hke, hwe⟩ | hold
      · subst hwe
        have := hs _ _ hwallet
        simp only
        omega
      · exact hs _ _ hold
  | createWallet tx =>
    simp only [applyTx, CreateWallet.execute] at h
    split at h
    case h_2 => cases h
    case h_1 hnone =>
      injection h with h
      subst h
      intro k w hk
      simp only [create_wallet, wallet_history] at hk
      rcases alget_alput_elim hk with ⟨hke, hwe⟩ | hold
      · subst hwe
        simp only
        omega
      · exact hs _ _ hold
  | confirmTransfer tx =>
    obtain ⟨pt, sender, receiver, hpt, hap, hful, hsender, hreceiver, hccw, ht⟩ :=
      confirm_execute_ok h
    subst ht
    have hcw : pt.amount ≤ sender.frozen_amount ∧
        (pt.amount : Int) ≤ (sender.frozen_amount : Int) + sender.balance := by
      simpa [can_confirm_withdrawal] using hccw
    intro k w hk
    simp only [fulfill_pending_transfer, increase_wallet_balance,
      decrease_wallet_frozen_balance, wallet_history] at hk
    rcases alget_alput_elim hk with ⟨hke, hwe⟩ | hold
    · subst hwe
      have := hs _ _ hreceiver
      simp only
      omega
    rcases alget_alput_elim hold with ⟨hke, hwe⟩ | hold2
    · subst hwe
      have := hs _ _ hsender
      simp only
      omega
    · exact hs _ _ hold2

theorem reachable_keyInv {initBal : Nat} {s : LedgerState}
    (h : Reachable initBal s) : KeyInv s := by
  induction h with
  | start =>
    constructor <;> intro k v hk <;> simp [emptyLedger, alget] at hk
  | step hr hstep ih => exact keyInv_preserved ih hstep

theorem reachable_sumInv {initBal : Nat} {s : LedgerState}
    (h : Reachable initBal s) : SumInv s := by
  induction h with
  | start => intro k v hk; simp [emptyLedger, alget] at hk
  | step hr hstep ih => exact sumInv_preserved ih hstep

/-! ### The transition preconditions as the specification words them -/

/-- The Transfer transition written as the spec's ordered precondition
cascade (claim C5), the first failure determining the error:
1. author ≠ approver and to ≠ approver, else ThirdPartySameAsSenderOrReceiver;
2. author ≠ to, else SenderSameAsReceiver;
3. approver's account exists, else ApproverNotFound;
4. author's account exists, else SenderNotFound;
5. receiver's account exists, else ReceiverNotFound;
6. author.balance + author.frozen_amount ≥ amount, else InsufficientCurrencyAmount.
On success the author's balance decreases by `amount`, the author's
frozen_amount increases by `amount`, and a pending transfer keyed by the
transaction id is created with `fulfilled = false`; the history append and
digest recomputation is the spec's §4.3 contract of the balance
primitives. -/
def transfer_spec_ordered (s : LedgerState) (author : PublicKey) (hash : Hash)
    (tx : Transfer) : Except TxError LedgerState :=
  if ¬(author ≠ tx.approver ∧ tx.«to» ≠ tx.approver) then
    .error .thirdPartySameAsSenderOrReceiver
  else if ¬author ≠ tx.«to» then
    .error .senderSameAsReceiver
  else if (alget s.wallets tx.approver).isNone then
    .error .approverNotFound
  else
    match alget s.wallets author with
    | none => .error .senderNotFound
    | some sender =>
      if (alget s.wallets tx.«to»).isNone then
        .error .receiverNotFound
      else if sender.balance + (sender.frozen_amount : Int) ≥ (tx.amount : Int) then
        .ok { s with
          histories := alput s.histories author (wallet_history s author ++ [hash]),
          wallets := alput s.wallets author
            { sender with
              balance := sender.balance - (tx.amount : Int),
              frozen_amount := sender.frozen_amount + tx.amount,
              history_len := (wallet_history s author ++ [hash]).length,
              history_hash := wallet_history s author ++ [hash] },
          pending_transfers := alput s.pending_transfers hash
            { tx_hash := hash, «from» := author, «to» := tx.«to»,
              approver := tx.approver, amount := tx.amount, fulfilled := false } }
      else .error .insufficientCurrencyAmount

/-- The ConfirmTransfer transition written as the spec's ordered
precondition cascade (claim C6), the first failure determining the error:
1. the pending transfer for tx_hash exists, else PendingTransferNotFound;
2. its recorded approver equals the author, else UnexpectedThirdParty
   (checked before the fulfilled check);
3. fulfilled is false, else PendingTransferAlreadyFulfilled;
4. the sender account exists, else SenderNotFound;
5. the receiver account exists, else ReceiverNotFound;
6. canConfirmWithdrawal(sender.balance, sender.frozen_amount, amount),
   else InsufficientCurrencyAmount.
On success the sender's frozen_amount decreases by `amount`, the receiver's
balance increases by `amount`, and the pending transfer is stored with
`fulfilled = true`; the history bookkeeping is the spec's §4.3 contract. -/
def confirm_transfer_spec_ordered (s : LedgerState) (author : PublicKey) (hash : Hash)
    (tx : ConfirmTransfer) : Except TxError LedgerState :=
  match alget s.pending_transfers tx.tx_hash with
  | none => .error .pendingTransferNotFound
  | some pt =>
    if ¬pt.approver = author then
      .error .unexpectedThirdParty
    else if pt.fulfilled = true then
      .error .pendingTransferAlreadyFulfilled
    else
      match alget s.wallets pt.«from» with
      | none => .error .senderNotFound
      | some sender =>
        match alget s.wallets pt.«to» with
        | none => .error .receiverNotFound
        | some receiver =>
          if can_confirm_withdrawal sender.balance sender.frozen_amount pt.amount then
            .ok
              (let afterSender : LedgerState := { s with
                histories := alput s.histories pt.«from»
                  (wallet_history s pt.«from» ++ [hash]),
                wallets := alput s.wallets pt.«from»
                  { sender with
                    frozen_amount := sender.frozen_amount - pt.amount,
                    history_len := (wallet_history s pt.«from» ++ [hash]).length,
                    history_hash := wallet_history s pt.«from» ++ [hash] } };
              { afterSender with
                histories := alput afterSender.histories pt.«to»
                  (wallet_history afterSender pt.«to» ++ [hash]),
                wallets := alput afterSender.wallets pt.«to»
                  { receiver with
                    balance := receiver.balance + (pt.amount : Int),
                    history_len := (wallet_history afterSender pt.«to» ++ [hash]).length,
                    history_hash := wallet_history afterSender pt.«to» ++ [hash] },
                pending_transfers := alput s.pending_transfers tx.tx_hash
                  { pt with fulfilled := true } })
          else .error .insufficientCurrencyAmount

/-- Claim C5: for every Transfer transaction (against any reachable state),
the preconditions are checked in exactly the claimed order with the first
failure determining the error — author ≠ approver and to ≠ approver (else
ThirdPartySameAsSenderOrReceiver), author ≠ to (else SenderSameAsReceiver),
approver's account exists (else ApproverNotFound), author's account exists
(else SenderNotFound), receiver's account exists (else ReceiverNotFound),
author.balance + author.frozen_amount ≥ amount (else
InsufficientCurrencyAmount) — and on success the author's balance decreases
by `amount`, the author's frozen_amount increases by `amount`, and a pending
transfer keyed by the transaction id is created with `fulfilled = false`:
`Transfer::execute` coincides with the spec's ordered cascade
`transfer_spec_ordered`. -/
theorem c5_transfer_check_order {initBal : Nat} {s : LedgerState}
    (hr : Reachable initBal s) (author : PublicKey) (hash : Hash) (tx : Transfer) :
    Transfer.execute s author hash tx = transfer_spec_ordered s author hash tx := by
  have hkey : ∀ k w, alget s.wallets k = some w → w.pub_key = k := (reachable_keyInv hr).1
  unfold Transfer.execute transfer_spec_ordered
  simp only [ne_eq, not_and_or, not_not, ge_iff_le]
  by_cases h1 : author = tx.approver ∨ tx.«to» = tx.approver
  · simp [h1]
  by_cases h2 : author = tx.«to»
  · simp [h1, h2]
  cases ha : alget s.wallets tx.approver with
  | none => simp [h1, h2, ha]
  | some wa =>
    cases hsend : alget s.wallets author with
    | none => simp [h1, h2, ha, hsend]
    | some sender =>
      cases hto : alget s.wallets tx.«to» with
      | none => simp [h1, h2, ha, hsend, hto]
      | some wto =>
        have hpk : sender.pub_key = author := hkey _ _ hsend
        by_cases hb : sender.balance + (sender.frozen_amount : Int) < (tx.amount : Int)
        · simp [h1, h2, ha, hsend, hto, hb, not_le.mpr hb]
        · simp [h1, h2, ha, hsend, hto, hb, not_lt.mp hb,
            create_pending_transfer, decrease_wallet_balance, wallet_history, hpk]

/-- Claim C6: for every ConfirmTransfer transaction (against any reachable
state), the preconditions are checked in exactly the claimed order with the
first failure determining the error — the pending transfer for tx_hash
exists (else PendingTransferNotFound), its recorded approver equals the
author (else UnexpectedThirdParty, before the fulfilled check), fulfilled is
false (else PendingTransferAlreadyFulfilled), the sender account exists
(else SenderNotFound), the receiver account exists (else ReceiverNotFound),
canConfirmWithdrawal(sender.balance, sender.frozen_amount, amount) (else
InsufficientCurrencyAmount) — and on success the sender's frozen_amount
decreases by `amount`, the receiver's balance increases by `amount`, and the
pending transfer is stored with `fulfilled = true`:
`ConfirmTransfer::execute` coincides with the spec's ordered cascade
`confirm_transfer_spec_ordered`. -/
theorem c6_confirm_check_order {initBal : Nat} {s : LedgerState}
    (hr : Reachable initBal s) (author : PublicKey) (hash : Hash) (tx : ConfirmTransfer) :
    ConfirmTransfer.execute s author hash tx = confirm_transfer_spec_ordered s author hash tx := by
  obtain ⟨hkeyW, hkeyP⟩ := reachable_keyInv hr
  unfold ConfirmTransfer.execute confirm_transfer_spec_ordered
  cases hpt : alget s.pending_transfers tx.tx_hash with
  | none => simp
  | some pt =>
    by_cases hap : pt.approver = author
    · by_cases hful : pt.fulfilled
      · simp [hap, hful]
      · cases hsend : alget s.wallets pt.«from» with
        | none => simp [hap, hful, hsend]
        | some sender =>
          cases hrecv : alget s.wallets pt.«to» with
          | none => simp [hap, hful, hsend, hrecv]
          | some receiver =>
            by_cases hccw :
                can_confirm_withdrawal sender.balance sender.frozen_amount pt.amount
            · have hpkS : sender.pub_key = pt.«from» := hkeyW _ _ hsend
              have hpkR : receiver.pub_key = pt.«to» := hkeyW _ _ hrecv
              have hpth : pt.tx_hash = tx.tx_hash := hkeyP _ _ hpt
              simp [hap, hful, hsend, hrecv, hccw, fulfill_pending_transfer,
                increase_wallet_balance, decrease_wallet_frozen_balance,
                wallet_history, PendingTransfer.set_fulfilled, hpkS, hpkR, hpth]
            · simp [hap, hful, hsend, hrecv, hccw]
    · simp [hap]

/-! ### Concrete executions used as witnesses -/

/-- Accounts 1 ("a"), 2 ("b"), 3 ("c") created with initial balance 100. -/
def baseEnvs : List Envelope :=
  [⟨1, 101, .createWallet ⟨"a"⟩⟩, ⟨2, 102, .createWallet ⟨"b"⟩⟩,
   ⟨3, 103, .createWallet ⟨"c"⟩⟩]

def sBase : LedgerState := (runList 100 emptyLedger baseEnvs).getD emptyLedger

/-- Account 1 escrows 60 towards 2 with approver 3 (transaction id 104). -/
def tEscrow : Envelope := ⟨1, 104, .transfer ⟨2, 3, 60, 0⟩⟩

def sPend : LedgerState := (runList 100 emptyLedger (baseEnvs ++ [tEscrow])).getD emptyLedger

/-- Approver 3 confirms escrow 104 (transaction id 105). -/
def tConfirm : Envelope := ⟨3, 105, .confirmTransfer ⟨104, 0⟩⟩

def sDone : LedgerState :=
  (runList 100 emptyLedger (baseEnvs ++ [tEscrow, tConfirm])).getD emptyLedger

/-- Account 1 escrows 60 and then 90 out of an initial balance of 100: the
second Transfer passes the `balance + frozen_amount ≥ amount` check
(40 + 60 ≥ 90) and drives the balance to -50. -/
def sOverdraft : LedgerState :=
  (runList 100 emptyLedger
    (baseEnvs ++ [tEscrow, ⟨1, 105, .transfer ⟨2, 3, 90, 1⟩⟩])).getD emptyLedger

theorem reachable_sBase : Reachable 100 sBase :=
  reachable_of_runList baseEnvs Reachable.start rfl

theorem reachable_sPend : Reachable 100 sPend :=
  reachable_of_runList (baseEnvs ++ [tEscrow]) Reachable.start rfl

theorem reachable_sDone : Reachable 100 sDone :=
  reachable_of_runList (baseEnvs ++ [tEscrow, tConfirm]) Reachable.start rfl

theorem reachable_sOverdraft : Reachable 100 sOverdraft :=
  reachable_of_runList (baseEnvs ++ [tEscrow, ⟨1, 105, .transfer ⟨2, 3, 90, 1⟩⟩])
    Reachable.start rfl

/-! ### Observables -/

/-- Spendable balance at a key (0 when the account is absent). -/
def balanceOf (s : LedgerState) (k : PublicKey) : Int :=
  ((alget s.wallets k).map Wallet.balance).getD 0

/-- Frozen amount at a key (0 when the account is absent). -/
def frozenOf (s : LedgerState) (k : PublicKey) : Int :=
  ((alget s.wallets k).map (fun w => (w.frozen_amount : Int))).getD 0

/-- The conserved quantity of claim C4:
`sender.balance + sender.frozen_amount + receiver.balance`. -/
def escrow_quantity (s : LedgerState) (sender receiver : PublicKey) : Int :=
  balanceOf s sender + frozenOf s sender + balanceOf s receiver

/-! ### The claims -/

/-- Claim C1: `ConfirmTransfer` authored by someone other than the approver
recorded in the referenced pending transfer fails with UnexpectedThirdParty
regardless of the `fulfilled` state (here: recorded approver 3, author 4,
for either value of `fulfilled`).  The `approver` attribute itself is the
code bug: `src/transactions.rs` requires it but `src/pending_transfer.rs`
does not declare it, so the crate does not compile; the behaviour is proved
against the model that includes the field `src/transactions.rs` reads. -/
theorem c1_unexpected_third_party_regardless_of_fulfilled :
    ∀ b : Bool,
      ConfirmTransfer.execute
        { wallets := [], histories := [],
          pending_transfers := [(7, ⟨7, 1, 2, 3, 30, b⟩)] }
        4 8 ⟨7, 0⟩ = .error .unexpectedThirdParty := by
  intro b
  rfl

/-- Claim C2: `can_confirm_withdrawal(balance, frozen, amount)` returns true
iff `frozen ≥ amount` and `frozen + balance ≥ amount`, and the four test
values of `tests/tx.rs` evaluate as the spec states. -/
theorem c2_can_confirm_withdrawal_correct :
    (∀ (balance : Int) (frozen amount : Nat),
      can_confirm_withdrawal balance frozen amount = true ↔
        (frozen ≥ amount ∧ (frozen : Int) + balance ≥ (amount : Int))) ∧
    can_confirm_withdrawal 100 100 10 = true ∧
    can_confirm_withdrawal 100 2 10 = false ∧
    can_confirm_withdrawal (-100) 20 10 = false ∧
    can_confirm_withdrawal (-100) 120 10 = true := by
  refine ⟨fun balance frozen amount => ?_, by decide, by decide, by decide, by decide⟩
  simp [can_confirm_withdrawal]

/-- Claim C3 is false as stated: there is a reachable state (initial balance
100; create accounts 1, 2, 3; account 1 escrows 60 and then 90) in which
account 1's balance is -50.  The Transfer guard only requires
`balance + frozen_amount ≥ amount` and then subtracts `amount` from the
(signed, i64) balance. -/
theorem c3_nonnegative_balance_refuted :
    ¬ ∀ (initBal : Nat) (s : LedgerState), Reachable initBal s →
        ∀ k w, alget s.wallets k = some w →
          0 ≤ w.balance ∧ 0 ≤ (w.frozen_amount : Int) := by
  intro hclaim
  have h := hclaim 100 sOverdraft reachable_sOverdraft 1
    ⟨1, "a", -50, 3, [101, 104, 105], 150⟩ (by rfl)
  exact absurd h.1 (by decide)

/-- Claim C3 (amended): for every account reachable from the empty store by
successful transitions, `balance + frozen_amount ≥ 0` and
`frozen_amount ≥ 0`; the balance alone may go negative, because Transfer
checks `balance + frozen_amount ≥ amount` and then subtracts `amount` from
the signed balance. -/
theorem c3_sum_nonnegative_invariant {initBal : Nat} {s : LedgerState}
    (hr : Reachable initBal s) :
    ∀ k w, alget s.wallets k = some w →
      0 ≤ w.balance + (w.frozen_amount : Int) ∧ 0 ≤ (w.frozen_amount : Int) :=
  fun k w hw => ⟨reachable_sumInv hr k w hw, Int.natCast_nonneg _⟩

theorem c3_sum_nonnegative_invariant_witness :
    0 ≤ (100 : Int) + ((0 : Nat) : Int) ∧ 0 ≤ ((0 : Nat) : Int) :=
  c3_sum_nonnegative_invariant reachable_sBase 1 ⟨1, "a", 100, 1, [101], 0⟩ (by rfl)

/-- Claim C7 is false as stated: in the reachable state `sDone` the pending
transfer 104 is fulfilled and its recorded approver is 3, yet a further
ConfirmTransfer referencing 104 authored by 4 fails with
UnexpectedThirdParty, not PendingTransferAlreadyFulfilled (the approver
check comes first). -/
theorem c7_foreign_confirm_error_refuted :
    Reachable 100 sDone ∧
    (alget sDone.pending_transfers 104).map PendingTransfer.fulfilled = some true ∧
    applyTx 100 sDone ⟨4, 106, .confirmTransfer ⟨104, 1⟩⟩ = .error .unexpectedThirdParty ∧
    TxError.unexpectedThirdParty ≠ TxError.pendingTransferAlreadyFulfilled :=
  ⟨reachable_sDone, rfl, rfl, by decide⟩

/-- Claim C7 (amended): once a pending transfer is fulfilled, every further
ConfirmTransfer referencing the same transfer id fails — with
PendingTransferAlreadyFulfilled when authored by the recorded approver and
with UnexpectedThirdParty otherwise — and the committed state (hence every
account's balance and frozen_amount) is unchanged. -/
theorem c7_fulfilled_is_terminal {initBal : Nat} {s : LedgerState}
    (hr : Reachable initBal s) (author : PublicKey) (hash : Hash)
    (tx : ConfirmTransfer) (pt : PendingTransfer)
    (hpt : alget s.pending_transfers tx.tx_hash = some pt)
    (hful : pt.fulfilled = true) :
    applyTx initBal s ⟨author, hash, .confirmTransfer tx⟩ =
      .error (if pt.approver = author then .pendingTransferAlreadyFulfilled
              else .unexpectedThirdParty) ∧
    commitTx initBal s ⟨author, hash, .confirmTransfer tx⟩ = s := by
  have h1 : applyTx initBal s ⟨author, hash, .confirmTransfer tx⟩ =
      .error (if pt.approver = author then TxError.pendingTransferAlreadyFulfilled
              else TxError.unexpectedThirdParty) := by
    show ConfirmTransfer.execute s author hash tx = _
    unfold ConfirmTransfer.execute
    simp only [hpt]
    by_cases hap : pt.approver = author
    · simp [hap, hful]
    · simp [hap]
  exact ⟨h1, by simp [commitTx, h1]⟩

theorem c7_fulfilled_is_terminal_witness :
    applyTx 100 sDone ⟨3, 107, .confirmTransfer ⟨104, 2⟩⟩ =
      .error .pendingTransferAlreadyFulfilled ∧
    commitTx 100 sDone ⟨3, 107, .confirmTransfer ⟨104, 2⟩⟩ = sDone := by
  have h := c7_fulfilled_is_terminal reachable_sDone 3 107 ⟨104, 2⟩
    ⟨104, 1, 2, 3, 60, true⟩ (by rfl) rfl
  simpa using h

/-- Claim C8 is false as stated: the error kinds SenderSameAsReceiver (raw
constant `ERROR_SENDER_SAME_AS_RECEIVER = 0`) and AlreadyExists (enum
discriminant `WalletAlreadyExists = 0`) are distinct kinds surfaced with the
same numeric code. -/
theorem c8_codes_not_distinct :
    TxError.senderSameAsReceiver ≠ TxError.walletAlreadyExists ∧
    errorCode TxError.senderSameAsReceiver = errorCode TxError.walletAlreadyExists := by
  decide

/-- Claim C8 (amended): the ten error kinds each carry a stable numeric
code, but they do not form one closed enumeration with pairwise-distinct
codes: seven are `enum Error` variants with discriminants 0-6, and the
remaining three are raw `u8` constants 0, 1, 2 that collide with the codes
of AlreadyExists, SenderNotFound and ReceiverNotFound. -/
theorem c8_error_code_table :
    errorCode .walletAlreadyExists = 0 ∧
    errorCode .senderNotFound = 1 ∧
    errorCode .receiverNotFound = 2 ∧
    errorCode .insufficientCurrencyAmount = 3 ∧
    errorCode .pendingTransferNotFound = 4 ∧
    errorCode .pendingTransferAlreadyFulfilled = 5 ∧
    errorCode .approverNotFound = 6 ∧
    errorCode .senderSameAsReceiver = 0 ∧
    errorCode .thirdPartySameAsSenderOrReceiver = 1 ∧
    errorCode .unexpectedThirdParty = 2 := by
  decide

/-- Claim C9: the externally published commitment (`state_hash`) is a
function solely of the wallets store: states with equal wallet stores have
equal state hashes, whatever their pending-transfer stores or history logs
hold. -/
theorem c9_state_hash_depends_only_on_wallets (s₁ s₂ : LedgerState)
    (h : s₁.wallets = s₂.wallets) : state_hash s₁ = state_hash s₂ := by
  simp [state_hash, h]

theorem c9_state_hash_depends_only_on_wallets_witness :
    state_hash { wallets := [], histories := [],
                 pending_transfers := [(7, ⟨7, 1, 2, 3, 30, true⟩)] } =
    state_hash { wallets := [], histories := [(1, [101])],
                 pending_transfers := [] } :=
  c9_state_hash_depends_only_on_wallets _ _ rfl

/-- Claim C10: fulfilling a pending transfer changes only the `fulfilled`
field — `tx_hash`, `from`, `to` (and `approver`, `amount`) are preserved —
and `fulfill_pending_transfer` stores the copy under the same key, the
record's own `tx_hash`. -/
theorem c10_fulfill_frame (s : LedgerState) (pt : PendingTransfer) :
    pt.set_fulfilled.fulfilled = true ∧
    pt.set_fulfilled.tx_hash = pt.tx_hash ∧
    pt.set_fulfilled.«from» = pt.«from» ∧
    pt.set_fulfilled.«to» = pt.«to» ∧
    pt.set_fulfilled.approver = pt.approver ∧
    pt.set_fulfilled.amount = pt.amount ∧
    fulfill_pending_transfer s pt =
      { s with pending_transfers := alput s.pending_transfers pt.tx_hash pt.set_fulfilled } :=
  ⟨rfl, rfl, rfl, rfl, rfl, rfl, rfl⟩

/-! ### Observable effects of the two escrow transitions -/

theorem transfer_ok_quantity {s t : LedgerState}
    (hkey : ∀ k w, alget s.wallets k = some w → w.pub_key = k)
    {author : PublicKey} {hash : Hash} {tx : Transfer}
    (h : Transfer.execute s author hash tx = .ok t) :
    balanceOf t author = balanceOf s author - (tx.amount : Int) ∧
    frozenOf t author = frozenOf s author + (tx.amount : Int) ∧
    (∀ k, k ≠ author → alget t.wallets k = alget s.wallets k) ∧
    alget t.pending_transfers hash =
      some ⟨hash, author, tx.«to», tx.approver, tx.amount, false⟩ ∧
    author ≠ tx.«to» := by
  obtain ⟨sender, hne1, hne2, hapSome, hsend, htoSome, hbal, ht⟩ := transfer_execute_ok h
  have hpkS : sender.pub_key = author := hkey _ _ hsend
  subst ht
  refine ⟨?_, ?_, ?_, ?_, hne2⟩
  · simp [balanceOf, create_pending_transfer, decrease_wallet_balance, hpkS,
      alget_alput_self, hsend]
  · simp [frozenOf, create_pending_transfer, decrease_wallet_balance, hpkS,
      alget_alput_self, hsend]
  · intro k hk
    simp only [create_pending_transfer, decrease_wallet_balance]
    rw [hpkS, alget_alput_ne _ _ _ _ (fun he => hk he.symm)]
  · simp [create_pending_transfer, decrease_wallet_balance, alget_alput_self]

theorem confirm_ok_quantity {s t : LedgerState}
    (hkey : ∀ k w, alget s.wallets k = some w → w.pub_key = k)
    {author : PublicKey} {hash : Hash} {tx : ConfirmTransfer}
    (h : ConfirmTransfer.execute s author hash tx = .ok t) :
    ∃ pt sender,
      alget s.pending_transfers tx.tx_hash = some pt ∧
      alget s.wallets pt.«from» = some sender ∧
      pt.amount ≤ sender.frozen_amount ∧
      (pt.«from» ≠ pt.«to» →
        balanceOf t pt.«from» = balanceOf s pt.«from» ∧
        frozenOf t pt.«from» = frozenOf s pt.«from» - (pt.amount : Int) ∧
        balanceOf t pt.«to» = balanceOf s pt.«to» + (pt.amount : Int)) ∧
      (∀ k, k ≠ pt.«from» → k ≠ pt.«to» → alget t.wallets k = alget s.wallets k) := by
  obtain ⟨pt, sender, receiver, hpt, hap, hful, hsend, hrecv, hccw, ht⟩ :=
    confirm_execute_ok h
  have hpkS : sender.pub_key = pt.«from» := hkey _ _ hsend
  have hpkR : receiver.pub_key = pt.«to» := hkey _ _ hrecv
  have hcw : pt.amount ≤ sender.frozen_amount ∧
      (pt.amount : Int) ≤ (sender.frozen_amount : Int) + sender.balance := by
    simpa [can_confirm_withdrawal] using hccw
  subst ht
  refine ⟨pt, sender, hpt, hsend, hcw.1, ?_, ?_⟩
  · intro hfromto
    have hneq : pt.«to» ≠ pt.«from» := fun he => hfromto he.symm
    refine ⟨?_, ?_, ?_⟩
    · simp only [balanceOf, fulfill_pending_transfer, increase_wallet_balance,
        decrease_wallet_frozen_balance]
      rw [hpkS, hpkR, alget_alput_ne _ _ _ _ hneq, alget_alput_self, hsend]
      rfl
    · simp only [frozenOf, fulfill_pending_transfer, increase_wallet_balance,
        decrease_wallet_frozen_balance]
      rw [hpkS, hpkR, alget_alput_ne _ _ _ _ hneq, alget_alput_self, hsend]
      show ((sender.frozen_amount - pt.amount : Nat) : Int) =
        (sender.frozen_amount : Int) - (pt.amount : Int)
      have := hcw.1
      omega
    · simp only [balanceOf, fulfill_pending_transfer, increase_wallet_balance,
        decrease_wallet_frozen_balance]
      rw [hpkS, hpkR, alget_alput_self, hrecv]
      rfl
  · intro k hk1 hk2
    simp only [fulfill_pending_transfer, increase_wallet_balance,
      decrease_wallet_frozen_balance]
    rw [hpkS, hpkR, alget_alput_ne _ _ _ _ (fun he => hk2 he.symm),
      alget_alput_ne _ _ _ _ (fun he => hk1 he.symm)]

/-- Claim C4: for every reachable state in which a Transfer of amount A
succeeds and its matching ConfirmTransfer then succeeds, the quantity
`sender.balance + sender.frozen_amount + receiver.balance` is the same
before the Transfer and after the ConfirmTransfer, and every account other
than the sender and the receiver is untouched: the pair of transitions
creates no value, it only reallocates it between the two accounts. -/
theorem c4_transfer_confirm_conservation (initBal : Nat) (s s₁ s₂ : LedgerState)
    (author cauthor : PublicKey) (hash chash : Hash) (tx : Transfer) (seed₂ : Nat)
    (hr : Reachable initBal s)
    (h₁ : applyTx initBal s ⟨author, hash, .transfer tx⟩ = .ok s₁)
    (h₂ : applyTx initBal s₁ ⟨cauthor, chash, .confirmTransfer ⟨hash, seed₂⟩⟩ = .ok s₂) :
    escrow_quantity s₂ author tx.«to» = escrow_quantity s author tx.«to» ∧
    ∀ k, k ≠ author → k ≠ tx.«to» → alget s₂.wallets k = alget s.wallets k := by
  have hkeyS := (reachable_keyInv hr).1
  have hkey₁ := (keyInv_preserved (reachable_keyInv hr) h₁).1
  obtain ⟨hbalA, hfrzA, hframe₁, hpend₁, hne⟩ := transfer_ok_quantity hkeyS h₁
  obtain ⟨pt, sender, hpt, hsendPt, hle, hmain, hframe₂⟩ := confirm_ok_quantity hkey₁ h₂
  have hptP : pt = ⟨hash, author, tx.«to», tx.approver, tx.amount, false⟩ := by
    have hpt' : alget s₁.pending_transfers hash = some pt := hpt
    rw [hpend₁] at hpt'
    exact (Option.some_injective _ hpt').symm
  subst hptP
  obtain ⟨hb2, hf2, hbto2⟩ := hmain hne
  have hb2' : balanceOf s₂ author = balanceOf s₁ author := hb2
  have hf2' : frozenOf s₂ author = frozenOf s₁ author - (tx.amount : Int) := hf2
  have hbto2' : balanceOf s₂ tx.«to» = balanceOf s₁ tx.«to» + (tx.amount : Int) := hbto2
  have hbalTo : balanceOf s₁ tx.«to» = balanceOf s tx.«to» := by
    unfold balanceOf
    rw [hframe₁ tx.«to» (fun he => hne he.symm)]
  constructor
  · unfold escrow_quantity
    rw [hb2', hf2', hbto2', hbalA, hfrzA, hbalTo]
    ring
  · intro k hk1 hk2
    have hfr₂ : alget s₂.wallets k = alget s₁.wallets k := hframe₂ k hk1 hk2
    rw [hfr₂, hframe₁ k hk1]

theorem c4_transfer_confirm_conservation_witness :
    escrow_quantity sDone 1 2 = escrow_quantity sBase 1 2 :=
  (c4_transfer_confirm_conservation 100 sBase sPend sDone 1 3 104 105
    ⟨2, 3, 60, 0⟩ 0 reachable_sBase (by rfl) (by rfl)).1

theorem c5_transfer_check_order_witness :
    Transfer.execute sBase 1 104 ⟨2, 3, 60, 0⟩ =
      transfer_spec_ordered sBase 1 104 ⟨2, 3, 60, 0⟩ :=
  c5_transfer_check_order reachable_sBase 1 104 ⟨2, 3, 60, 0⟩

theorem c6_confirm_check_order_witness :
    ConfirmTransfer.execute sPend 3 105 ⟨104, 0⟩ =
      confirm_transfer_spec_ordered sPend 3 105 ⟨104, 0⟩ :=
  c6_confirm_check_order reachable_sPend 3 105 ⟨104, 0⟩

end ExonumTx
